import Mathlib

/-!
Shallow embedding of the kilocode-ai-proxy HTTP handlers
(`src/server.js`, two variants, and `src/unnamed/part_000`).

Strings are modelled as `List Char`; JavaScript values observed by the
handlers are modelled by the inductive `Jx` (with `undefined` for JavaScript
`undefined`); upstream HTTP calls are modelled by oracles supplied in an
environment structure, and every handler additionally returns the trace of
upstream calls it performed, so that routing claims ("client X is never
invoked") are statable.
-/

namespace Proxy

abbrev Str := List Char

/-- JavaScript values as observed by the proxy handlers. -/
inductive Jx where
  | undefined
  | null
  | bool (b : Bool)
  | num (n : Int)
  | str (s : Str)
  | arr (elems : List Jx)
  | obj (fields : List (Str × Jx))

/-- JavaScript truthiness (floats are not used by the embedded code). -/
def truthy : Jx → Bool
  | .undefined => false
  | .null => false
  | .bool b => b
  | .num n => n != 0
  | .str s => !s.isEmpty
  | .arr _ => true
  | .obj _ => true

/-- Field lookup in an object's field list (`undefined` when missing). -/
def lookupField (k : Str) : List (Str × Jx) → Jx
  | [] => .undefined
  | (k', v) :: rest => if k' = k then v else lookupField k rest

/-- Field lookup returning `none` when the key is missing. -/
def lookupFieldOpt (k : Str) : List (Str × Jx) → Option Jx
  | [] => none
  | (k', v) :: rest => if k' = k then some v else lookupFieldOpt k rest

/-- `j.k` property access on a value already known to be non-nullish. -/
def propGet (j : Jx) (k : Str) : Jx :=
  match j with
  | .obj fs => lookupField k fs
  | _ => .undefined

/-- `j[n]` index access on a value already known to be non-nullish. -/
def idxGet (j : Jx) (n : Nat) : Jx :=
  match j with
  | .arr xs => (xs.drop n).headD .undefined
  | .str s =>
    match (s.drop n).head? with
    | some ch => .str [ch]
    | none => .undefined
  | _ => .undefined

/-- Optional chaining `j?.k`. -/
def optChainProp (j : Jx) (k : Str) : Jx :=
  match j with
  | .undefined => .undefined
  | .null => .undefined
  | j => propGet j k

/-- Optional chaining `j?.[n]`. -/
def optChainIdx (j : Jx) (n : Nat) : Jx :=
  match j with
  | .undefined => .undefined
  | .null => .undefined
  | j => idxGet j n

/-- Build a `Jx` string from a Lean string literal. -/
def jstr (s : String) : Jx := .str s.data

/-- Build a `Jx` object from a literal field list. -/
def jobj (fields : List (String × Jx)) : Jx :=
  .obj (fields.map fun kv => (kv.fst.data, kv.snd))

/-- Read an object field of a `HandlerResult` body (`none` when absent). -/
def jGetOpt (j : Jx) (k : Str) : Option Jx :=
  match j with
  | .obj fs => lookupFieldOpt k fs
  | _ => none

/-- `s.startsWith(marker)` of JavaScript. -/
def jsStartsWith : Str → Str → Bool
  | _, [] => true
  | [], _ :: _ => false
  | c :: cs, p :: ps => p = c && jsStartsWith cs ps

/-- Worker for `split` with a one-character separator. -/
def splitOnCharAux (c : Char) : Str → Str → List Str
  | [], acc => [acc.reverse]
  | x :: xs, acc =>
    if x = c then acc.reverse :: splitOnCharAux c xs []
    else splitOnCharAux c xs (x :: acc)

/-- JavaScript `s.split(c)` for a one-character separator `c`. -/
def splitOnChar (c : Char) (s : Str) : List Str :=
  splitOnCharAux c s []

/-- Substring occurrence test (used for the `/already exists/i` regex). -/
def strContains (needle : Str) : Str → Bool
  | [] => needle.isEmpty
  | c :: rest => jsStartsWith (c :: rest) needle || strContains needle rest

/-- Case-insensitive `/already exists/` match on an error message. -/
def containsAlreadyExists (m : Str) : Bool :=
  strContains ("already exists".data) (m.map Char.toLower)

/-- An axios-style failure: either an HTTP error response (carrying the
status and the upstream body's `message` field when it is a string), or a
locally thrown JavaScript error with no `response` property. -/
inductive AxErr where
  | http (status : Nat) (message : Option Str)
  | js (msg : Str)
deriving DecidableEq

/-- The guard `err.response && err.response.data && err.response.data.message
&& /already exists/i.test(err.response.data.message)` of `pushFileToRepo`. -/
def isAlreadyExistsErr : AxErr → Bool
  | .http _ (some m) => !m.isEmpty && containsAlreadyExists m
  | _ => false

/-- `err.message` of an axios error, as relayed by the catch blocks. -/
def axErrMessage : AxErr → Str
  | .js m => m
  | .http s _ => "Request failed with status code ".data ++ (toString s).data

/-- One message of a chat-completion request body. -/
structure ChatMessage where
  role : Str
  content : Str
deriving DecidableEq

/-- One entry of `commits[0].changes` in an Azure DevOps push body. -/
structure PushChange where
  changeType : Str
  path : Str
  content : Str
deriving DecidableEq

/-- The observable part of an Azure DevOps `/pushes` request body. -/
structure PushBody where
  refName : Str
  oldObjectId : Str
  comment : Str
  changes : List PushChange
deriving DecidableEq

/-- One upstream HTTP call performed by a handler. -/
inductive UpstreamCall where
  | pipelineRun (step : Str) (branchRef : Str)
  | chatCompletion (messages : List ChatMessage)
  | repoGetItem (path : Str)
  | repoGetRefs (filter : Str)
  | repoPush (body : PushBody)
deriving DecidableEq

/-- An HTTP response sent back to the client, together with the trace of
upstream calls the handler performed while producing it. -/
structure HandlerResult where
  status : Nat
  body : Jx
  calls : List UpstreamCall

/-- Result of `await resp.json().catch(() => ({}))` plus `resp.ok`. -/
structure FetchResp where
  ok : Bool
  data : Jx

/-- Upstream oracles for the `/api/ai` handler of `src/server.js`. -/
structure ApiAiEnv where
  pipelineResp : FetchResp
  openRouterResp : FetchResp

/-- The request body of `/api/ai`: the handler destructures only `prompt`;
`command` stands for any further field the client may send. -/
structure ApiAiBody where
  prompt : Option Str
  command : Option Str

def specifyMarker : Str := "/specify.".data

def mainBranchRef : Str := "refs/heads/main".data

/-- `v || null`. -/
def jsOrNull (v : Jx) : Jx := if truthy v then v else .null

/-- `aiData?.choices?.[0]?.message?.content || ""` of `src/server.js:118`. -/
def extractContentA (d : Jx) : Jx :=
  let v := optChainProp (optChainProp (optChainIdx (optChainProp d "choices".data) 0)
    "message".data) "content".data
  if truthy v then v else .str []

/-- The `app.post("/api/ai")` handler of `src/server.js` (first variant). -/
def apiAiHandler (body : ApiAiBody) (env : ApiAiEnv) : HandlerResult :=
  match body.prompt with
  | none => ⟨400, jobj [("error", jstr "No prompt provided")], []⟩
  | some p =>
    if p.isEmpty then ⟨400, jobj [("error", jstr "No prompt provided")], []⟩
    else if jsStartsWith p specifyMarker then
      let step := (splitOnChar '.' p).getD 1 []
      let calls := [UpstreamCall.pipelineRun step mainBranchRef]
      if env.pipelineResp.ok then
        ⟨200, jobj [("output", .str ("Pipeline triggered for step: ".data ++ step)),
                    ("pipelineRunId", jsOrNull (optChainProp env.pipelineResp.data "id".data))],
         calls⟩
      else
        ⟨500, jobj [("error", jstr "Pipeline failed"),
                    ("details", env.pipelineResp.data)], calls⟩
    else
      let calls := [UpstreamCall.chatCompletion [⟨"user".data, p⟩]]
      if env.openRouterResp.ok then
        ⟨200, jobj [("output", extractContentA env.openRouterResp.data)], calls⟩
      else
        ⟨500, jobj [("error", jstr "OpenRouter request failed"),
                    ("details", env.openRouterResp.data)], calls⟩

/-- The `app.post("/api/ai")` handler of `src/unnamed/part_000`: `data` is
the parsed upstream response (that variant never checks `apiRes.ok`). -/
def part000Handler (prompt : Option Str) (data : Jx) : HandlerResult :=
  match prompt with
  | none => ⟨400, jobj [("error", jstr "Prompt is required")], []⟩
  | some p =>
    if p.isEmpty then ⟨400, jobj [("error", jstr "Prompt is required")], []⟩
    else
      let calls := [UpstreamCall.chatCompletion [⟨"user".data, p⟩]]
      if !truthy data || !truthy (propGet data "choices".data) ||
          !truthy (idxGet (propGet data "choices".data) 0) then
        ⟨500, jobj [("error", jstr "Invalid OpenRouter response"), ("raw", data)], calls⟩
      else
        match propGet (idxGet (propGet data "choices".data) 0) "message".data with
        | .undefined => ⟨500, jobj [("error", jstr "Proxy server failed"),
                                ("details", jstr "TypeError")], calls⟩
        | .null => ⟨500, jobj [("error", jstr "Proxy server failed"),
                               ("details", jstr "TypeError")], calls⟩
        | m => ⟨200, jobj [("output", propGet m "content".data)], calls⟩

/-- `err.response && err.response.status === 404`. -/
def is404 : AxErr → Bool
  | .http s _ => s == 404
  | .js _ => false

/-- `getFileContentFromRepo` of `src/server.js` (second variant): maps a
404 to `null`, rethrows any other failure, and returns the `content`
field of the response body when it is truthy (else `null`). -/
def getFileContentFromRepo (resp : Except AxErr Jx) : Except AxErr Jx :=
  match resp with
  | .ok d =>
    if truthy d && truthy (propGet d "content".data) then .ok (propGet d "content".data)
    else .ok .null
  | .error e => if is404 e then .ok .null else .error e

/-- A ref entry of the Azure DevOps `/refs` response array. -/
structure RefInfo where
  objectId : Str
deriving DecidableEq

/-- Upstream oracles for `pushFileToRepo`: the first/second `/refs` lookup
and the first/second `/pushes` attempt. -/
structure PushEnv where
  refs1 : Except AxErr (List RefInfo)
  push1 : Except AxErr Jx
  refs2 : Except AxErr (List RefInfo)
  push2 : Except AxErr Jx

def refsFilter : Str := "heads/main".data

def mkPushBody (changeType oldObjectId path content comment : Str) : PushBody :=
  ⟨mainBranchRef, oldObjectId, comment, [⟨changeType, path, content⟩]⟩

/-- The TypeError raised by `refsResp.data[0].objectId` on an empty list. -/
def typeErrorUndef : AxErr := .js "Cannot read properties of undefined".data

def noMainRefsErr : AxErr := .js "Cannot find main branch refs".data

/-- The catch block of `pushFileToRepo`: on an `/already exists/i` error it
performs a fresh refs lookup and retries the push once as `edit` with the
same path, content and commit message; any other error is rethrown. -/
def pushCatch (path content commitMessage : Str) (env : PushEnv) (e : AxErr)
    (trace : List UpstreamCall) : Except AxErr Jx × List UpstreamCall :=
  if isAlreadyExistsErr e then
    match env.refs2 with
    | .error e2 => (.error e2, trace ++ [.repoGetRefs refsFilter])
    | .ok [] => (.error typeErrorUndef, trace ++ [.repoGetRefs refsFilter])
    | .ok (r :: _) =>
      let body := mkPushBody "edit".data r.objectId path content commitMessage
      (env.push2, trace ++ [.repoGetRefs refsFilter, .repoPush body])
  else
    (.error e, trace)

/-- `pushFileToRepo` of `src/server.js` (second variant): refs lookup, an
`add` push, and the single add→edit fallback in the catch block. -/
def pushFileToRepo (path content commitMessage : Str) (env : PushEnv) :
    Except AxErr Jx × List UpstreamCall :=
  match env.refs1 with
  | .error e => pushCatch path content commitMessage env e [.repoGetRefs refsFilter]
  | .ok [] => pushCatch path content commitMessage env noMainRefsErr [.repoGetRefs refsFilter]
  | .ok (r :: _) =>
    let body := mkPushBody "add".data r.objectId path content commitMessage
    let trace := [UpstreamCall.repoGetRefs refsFilter, UpstreamCall.repoPush body]
    match env.push1 with
    | .ok d => (.ok d, trace)
    | .error e => pushCatch path content commitMessage env e trace

def isStrJx : Jx → Bool
  | .str _ => true
  | _ => false

def jxToStr : Jx → Str
  | .str s => s
  | _ => []

/-- The `app.post('/save')` handler of `src/server.js` (second variant). -/
def saveHandler (env : PushEnv) (path content commitMessage : Jx) : HandlerResult :=
  if !truthy path || !isStrJx content then
    ⟨400, jobj [("error", jstr "path and content required")], []⟩
  else
    let msg := if truthy commitMessage then jxToStr commitMessage
               else "Speckit AI update".data
    match pushFileToRepo (jxToStr path) (jxToStr content) msg env with
    | (.ok d, calls) => ⟨200, jobj [("success", .bool true), ("push", d)], calls⟩
    | (.error e, calls) => ⟨500, jobj [("error", .str (axErrMessage e))], calls⟩

/-- Startup configuration read from the environment by the second variant. -/
structure LLMConfig where
  provider : Str
  openrouterKey : Option Str
  openaiKey : Option Str
  azureEndpoint : Option Str

/-- Upstream oracles for the `/generate` handler: the `/items` read response
per repo path, and the chat-completion response body. -/
structure GenEnv where
  reads : Str → Except AxErr Jx
  llmResp : Except AxErr Jx

def truthyOptStr : Option Str → Bool
  | none => false
  | some s => !s.isEmpty

def speckitSystemMsg : Str :=
  "You are Speckit AI â€” follow the project constitution and produce clear, structured outputs.".data

/-- Plain (throwing) property access `j.k`. -/
def jAccessEx (j : Jx) (k : Str) : Except AxErr Jx :=
  match j with
  | .undefined => .error (.js "Cannot read properties of undefined".data)
  | .null => .error (.js "Cannot read properties of null".data)
  | j => .ok (propGet j k)

/-- Plain (throwing) index access `j[n]`. -/
def jIdxEx (j : Jx) (n : Nat) : Except AxErr Jx :=
  match j with
  | .undefined => .error (.js "Cannot read properties of undefined".data)
  | .null => .error (.js "Cannot read properties of null".data)
  | j => .ok (idxGet j n)

/-- `resp.data.choices[0].message.content` of `callLLM` (plain accesses:
a missing `choices`, element or `message` throws a TypeError). -/
def extractChoiceContentEx (d : Jx) : Except AxErr Jx := do
  let cs ← jAccessEx d "choices".data
  let c0 ← jIdxEx cs 0
  let m ← jAccessEx c0 "message".data
  jAccessEx m "content".data

/-- `callLLM` of `src/server.js` (second variant), with the axios response
body supplied by the oracle `resp`. -/
def callLLM (cfg : LLMConfig) (resp : Except AxErr Jx) (prompt : Str) :
    Except AxErr Jx × List UpstreamCall :=
  let messages : List ChatMessage := [⟨"system".data, speckitSystemMsg⟩, ⟨"user".data, prompt⟩]
  if cfg.provider = "openrouter".data then
    if !truthyOptStr cfg.openrouterKey then (.error (.js "Missing OPENROUTER_API_KEY".data), [])
    else
      match resp with
      | .error e => (.error e, [.chatCompletion messages])
      | .ok d => (extractChoiceContentEx d, [.chatCompletion messages])
  else if cfg.provider = "openai".data then
    if !truthyOptStr cfg.openaiKey then (.error (.js "Missing OPENAI_API_KEY".data), [])
    else
      match resp with
      | .error e => (.error e, [.chatCompletion messages])
      | .ok d => (extractChoiceContentEx d, [.chatCompletion messages])
  else if cfg.provider = "azure".data then
    if !truthyOptStr cfg.azureEndpoint || !truthyOptStr cfg.openaiKey then
      (.error (.js "Missing Azure OpenAI config".data), [])
    else
      match resp with
      | .error e => (.error e, [.chatCompletion messages])
      | .ok d => (extractChoiceContentEx d, [.chatCompletion messages])
  else (.error (.js "Unknown LLM_PROVIDER".data), [])

/-- `f.replace(/\//g, '')` — the key under which a file is stored. -/
def sanitizeName (f : Str) : Str := f.filter (fun c => c != '/')

/-- One iteration of the `/generate` file loop: read the file, treat the
result `c` as `c || ''`, and treat ANY thrown error as `''` (the loop's
catch comments "ignore missing files for POC"). -/
def gatherEntry (reads : Str → Except AxErr Jx) (f : Str) : Str × Jx :=
  (sanitizeName f,
   match getFileContentFromRepo (reads f) with
   | .ok c => if truthy c then c else .str []
   | .error _ => .str [])

/-- The `/generate` file loop over all candidate paths. -/
def gatherRepoFiles (reads : Str → Except AxErr Jx) (fs : List Str) : List (Str × Jx) :=
  fs.map (gatherEntry reads)

/-- `--- BEGIN FILE ... END FILE ---` block of `buildSpeckitPrompt`; a
truthy non-string content makes `content.substring` throw. -/
def fileSection (name : Str) (content : Jx) : Except AxErr Str :=
  if truthy content then
    match content with
    | .str s =>
      .ok ("--- BEGIN FILE: ".data ++ name ++ " ---\n".data ++ s.take 50000 ++
           "\n--- END FILE: ".data ++ name ++ " ---\n\n".data)
    | _ => .error (.js "content.substring is not a function".data)
  else
    .ok ("--- BEGIN FILE: ".data ++ name ++ " ---\n".data ++ "(empty)".data ++
         "\n--- END FILE: ".data ++ name ++ " ---\n\n".data)

def fileSections : List (Str × Jx) → Except AxErr Str
  | [] => .ok []
  | (n, c) :: rest => do
    let s ← fileSection n c
    let r ← fileSections rest
    .ok (s ++ r)

def speckitHeader (userPrompt : Str) : Str :=
  "You are Speckit AI. The user requested: ".data ++ userPrompt ++ "\n\n".data ++
  "Project files provided below. Use them as context and follow the project constitution rules when generating output.\n\n".data

def speckitFooter : Str :=
  "Produce the requested Speckit output. Use headings, numbered lists, and be concise. If you need to create a new file, output only the file content with a top line \"FILE: <path>\" so the caller can detect it.".data

/-- `buildSpeckitPrompt` of `src/server.js` (second variant). -/
def buildSpeckitPrompt (userPrompt : Str) (repoFiles : List (Str × Jx)) :
    Except AxErr Str := do
  let files ← fileSections repoFiles
  .ok (speckitHeader userPrompt ++ files ++ speckitFooter)

/-- The four fixed default paths of the `/generate` handler. -/
def defaultFiles : List Str :=
  ["/.specify/constitution.md".data, "/.specify/plan.md".data,
   "/.specify/spec.md".data, "/.specify/tasks.md".data]

/-- `files && files.length ? files : [ ...defaults ]`. -/
def fileCandidates : Option (List Str) → List Str
  | some fs => if fs.isEmpty then defaultFiles else fs
  | none => defaultFiles

/-- The `app.post('/generate')` handler of `src/server.js` (second
variant). -/
def generateHandler (cfg : LLMConfig) (env : GenEnv)
    (command userPrompt : Option Str) (files : Option (List Str)) : HandlerResult :=
  if !truthyOptStr command || !truthyOptStr userPrompt then
    ⟨400, jobj [("error", jstr "command and prompt are required")], []⟩
  else
    let cmd := command.getD []
    let up := userPrompt.getD []
    let cands := fileCandidates files
    let readCalls := cands.map UpstreamCall.repoGetItem
    let repoFiles := gatherRepoFiles env.reads cands
    match buildSpeckitPrompt (cmd ++ ": ".data ++ up) repoFiles with
    | .error e => ⟨500, jobj [("error", .str (axErrMessage e))], readCalls⟩
    | .ok builtPrompt =>
      match callLLM cfg env.llmResp builtPrompt with
      | (.ok result, llmCalls) => ⟨200, jobj [("output", result)], readCalls ++ llmCalls⟩
      | (.error e, llmCalls) => ⟨500, jobj [("error", .str (axErrMessage e))], readCalls ++ llmCalls⟩

/-- Spec-side definition: the text between the first and the second `.`
of `s` (everything after the first `.` when no second `.` exists). -/
def betweenFirstDots (s : Str) : Str :=
  ((s.dropWhile (fun a => a != '.')).drop 1).takeWhile (fun a => a != '.')

/-- Replace every erroring read by a successful "no such file" read
(a body without a `content` field). -/
def maskReadErrors (reads : Str → Except AxErr Jx) : Str → Except AxErr Jx :=
  fun f =>
    match reads f with
    | .error _ => .ok .null
    | ok => ok

/-!  Helper lemmas about the embedded string operations. -/

theorem jsStartsWith_iff (s m : Str) : jsStartsWith s m = true ↔ ∃ t, s = m ++ t := by
  induction m generalizing s with
  | nil => simp [jsStartsWith]
  | cons p ps ih =>
    cases s with
    | nil => simp [jsStartsWith]
    | cons c cs =>
      simp [jsStartsWith, ih, List.cons_eq_cons]
      exact fun _ _ => eq_comm

theorem splitOnCharAux_eq (c : Char) (s acc : List Char) :
    splitOnCharAux c s acc =
      (acc.reverse ++ s.takeWhile (fun a => a != c)) ::
        (if c ∈ s then splitOnChar c ((s.dropWhile (fun a => a != c)).drop 1) else []) := by
  induction s generalizing acc with
  | nil => simp [splitOnCharAux]
  | cons x xs ih =>
    by_cases hx : x = c
    · subst hx
      simp [splitOnCharAux, splitOnChar, List.takeWhile_cons, List.dropWhile_cons]
    · have hcx : ¬(c = x) := fun h => hx h.symm
      simp [splitOnCharAux, hx, ih, List.takeWhile_cons, List.dropWhile_cons, hcx]

theorem splitOnChar_getD1 (s : Str) (h : '.' ∈ s) :
    (splitOnChar '.' s).getD 1 [] = betweenFirstDots s := by
  rw [splitOnChar, splitOnCharAux_eq, if_pos h, splitOnChar, splitOnCharAux_eq]
  simp [betweenFirstDots]

/-- C1: for every `/api/ai` request whose prompt begins with `/specify.`,
the extracted step is the segment at index 1 of splitting the prompt on
`.`, which equals the text between the first and second `.`; the prompt
`/specify.` yields an empty step. -/
theorem specify_step_extraction (body : ApiAiBody) (env : ApiAiEnv) (p : Str)
    (hp : body.prompt = some p) (hpre : jsStartsWith p specifyMarker = true) :
    (splitOnChar '.' p).getD 1 [] = betweenFirstDots p ∧
    (apiAiHandler body env).calls = [.pipelineRun (betweenFirstDots p) mainBranchRef] ∧
    (splitOnChar '.' "/specify.".data).getD 1 [] = [] := by
  obtain ⟨t, rfl⟩ := (jsStartsWith_iff p specifyMarker).mp hpre
  have hdot : '.' ∈ specifyMarker ++ t := List.mem_append_left _ (by decide)
  have hstep := splitOnChar_getD1 _ hdot
  refine ⟨hstep, ?_, by decide⟩
  have hne : (specifyMarker ++ t).isEmpty = false := rfl
  have hstep' : (splitOnChar '.' (specifyMarker ++ t))[1]?.getD []
      = betweenFirstDots (specifyMarker ++ t) := by
    rw [← List.getD_eq_getElem?_getD]; exact hstep
  cases hok : env.pipelineResp.ok <;>
    simp [apiAiHandler, hp, hne, hpre, hok, hstep']

theorem specify_step_extraction_witness :
    (splitOnChar '.' "/specify.plan".data).getD 1 [] = betweenFirstDots "/specify.plan".data ∧
    (apiAiHandler ⟨some "/specify.plan".data, none⟩ ⟨⟨true, Jx.null⟩, ⟨true, Jx.null⟩⟩).calls
      = [.pipelineRun (betweenFirstDots "/specify.plan".data) mainBranchRef] ∧
    (splitOnChar '.' "/specify.".data).getD 1 [] = [] :=
  specify_step_extraction ⟨some "/specify.plan".data, none⟩ ⟨⟨true, Jx.null⟩, ⟨true, Jx.null⟩⟩
    "/specify.plan".data rfl (by decide)

/-- C2: a non-empty `/api/ai` prompt that does not begin with `/specify.`
is routed to the chat-completion upstream only: the trace is exactly one
chat call, and no pipeline or repo call occurs. -/
theorem chat_route_only (body : ApiAiBody) (env : ApiAiEnv) (p : Str)
    (hp : body.prompt = some p) (hne : p ≠ [])
    (hpre : jsStartsWith p specifyMarker = false) :
    (apiAiHandler body env).calls = [.chatCompletion [⟨"user".data, p⟩]] ∧
    (∀ s br, UpstreamCall.pipelineRun s br ∉ (apiAiHandler body env).calls) ∧
    (∀ pa, UpstreamCall.repoGetItem pa ∉ (apiAiHandler body env).calls) ∧
    (∀ fl, UpstreamCall.repoGetRefs fl ∉ (apiAiHandler body env).calls) ∧
    (∀ b, UpstreamCall.repoPush b ∉ (apiAiHandler body env).calls) := by
  have hb : p.isEmpty = false := by
    cases p with
    | nil => exact absurd rfl hne
    | cons c cs => rfl
  have hcalls : (apiAiHandler body env).calls = [.chatCompletion [⟨"user".data, p⟩]] := by
    cases hok : env.openRouterResp.ok <;>
      simp [apiAiHandler, hp, hb, hpre, hok]
  refine ⟨hcalls, ?_, ?_, ?_, ?_⟩
  · intro s br h; rw [hcalls] at h; simp at h
  · intro pa h; rw [hcalls] at h; simp at h
  · intro fl h; rw [hcalls] at h; simp at h
  · intro b h; rw [hcalls] at h; simp at h

theorem chat_route_only_witness :
    (apiAiHandler ⟨some "hello".data, none⟩ ⟨⟨true, Jx.null⟩, ⟨true, Jx.null⟩⟩).calls
      = [.chatCompletion [⟨"user".data, "hello".data⟩]] ∧
    (∀ s br, UpstreamCall.pipelineRun s br
      ∉ (apiAiHandler ⟨some "hello".data, none⟩ ⟨⟨true, Jx.null⟩, ⟨true, Jx.null⟩⟩).calls) ∧
    (∀ pa, UpstreamCall.repoGetItem pa
      ∉ (apiAiHandler ⟨some "hello".data, none⟩ ⟨⟨true, Jx.null⟩, ⟨true, Jx.null⟩⟩).calls) ∧
    (∀ fl, UpstreamCall.repoGetRefs fl
      ∉ (apiAiHandler ⟨some "hello".data, none⟩ ⟨⟨true, Jx.null⟩, ⟨true, Jx.null⟩⟩).calls) ∧
    (∀ b, UpstreamCall.repoPush b
      ∉ (apiAiHandler ⟨some "hello".data, none⟩ ⟨⟨true, Jx.null⟩, ⟨true, Jx.null⟩⟩).calls) :=
  chat_route_only ⟨some "hello".data, none⟩ ⟨⟨true, Jx.null⟩, ⟨true, Jx.null⟩⟩
    "hello".data rfl (by decide) (by decide)

/-! Helper lemmas about `pushFileToRepo`. -/

theorem pushFileToRepo_conflict_eq (path content msg : Str) (env : PushEnv)
    (r r2 : RefInfo) (rs rs2 : List RefInfo) (e : AxErr)
    (h1 : env.refs1 = .ok (r :: rs)) (h2 : env.push1 = .error e)
    (h3 : isAlreadyExistsErr e = true) (h4 : env.refs2 = .ok (r2 :: rs2)) :
    pushFileToRepo path content msg env =
      (env.push2,
       [.repoGetRefs refsFilter,
        .repoPush (mkPushBody "add".data r.objectId path content msg),
        .repoGetRefs refsFilter,
        .repoPush (mkPushBody "edit".data r2.objectId path content msg)]) := by
  simp [pushFileToRepo, pushCatch, h1, h2, h3, h4]

theorem pushFileToRepo_noconflict_eq (path content msg : Str) (env : PushEnv)
    (r : RefInfo) (rs : List RefInfo) (e : AxErr)
    (h1 : env.refs1 = .ok (r :: rs)) (h2 : env.push1 = .error e)
    (h3 : isAlreadyExistsErr e = false) :
    pushFileToRepo path content msg env =
      (.error e,
       [.repoGetRefs refsFilter,
        .repoPush (mkPushBody "add".data r.objectId path content msg)]) := by
  simp [pushFileToRepo, pushCatch, h1, h2, h3]

/-- C3: a push failing on `add` with an `already exists` upstream message
is retried exactly once as `edit` with the same path, content and commit
message (the full trace shows exactly two pushes); any other push
failure propagates with no retry (the trace shows a single push). -/
theorem push_add_conflict_retry (path content msg : Str) (env env' : PushEnv)
    (r r2 : RefInfo) (rs rs2 : List RefInfo) (e : AxErr)
    (h1 : env.refs1 = .ok (r :: rs)) (h2 : env.push1 = .error e)
    (h3 : isAlreadyExistsErr e = true) (h4 : env.refs2 = .ok (r2 :: rs2))
    (r' : RefInfo) (rs' : List RefInfo) (e' : AxErr)
    (h1' : env'.refs1 = .ok (r' :: rs')) (h2' : env'.push1 = .error e')
    (h3' : isAlreadyExistsErr e' = false) :
    pushFileToRepo path content msg env =
      (env.push2,
       [.repoGetRefs refsFilter,
        .repoPush (mkPushBody "add".data r.objectId path content msg),
        .repoGetRefs refsFilter,
        .repoPush (mkPushBody "edit".data r2.objectId path content msg)]) ∧
    pushFileToRepo path content msg env' =
      (.error e',
       [.repoGetRefs refsFilter,
        .repoPush (mkPushBody "add".data r'.objectId path content msg)]) :=
  ⟨pushFileToRepo_conflict_eq path content msg env r r2 rs rs2 e h1 h2 h3 h4,
   pushFileToRepo_noconflict_eq path content msg env' r' rs' e' h1' h2' h3'⟩

theorem push_add_conflict_retry_witness :
    pushFileToRepo "/p".data "c".data "m".data
      ⟨.ok [⟨"aaa".data⟩], .error (.http 409 (some "The item already exists".data)),
       .ok [⟨"bbb".data⟩], .ok (jstr "pushed")⟩ =
      (.ok (jstr "pushed"),
       [.repoGetRefs refsFilter,
        .repoPush (mkPushBody "add".data "aaa".data "/p".data "c".data "m".data),
        .repoGetRefs refsFilter,
        .repoPush (mkPushBody "edit".data "bbb".data "/p".data "c".data "m".data)]) ∧
    pushFileToRepo "/p".data "c".data "m".data
      ⟨.ok [⟨"aaa".data⟩], .error (.http 500 (some "server error".data)),
       .ok [⟨"bbb".data⟩], .ok (jstr "pushed")⟩ =
      (.error (.http 500 (some "server error".data)),
       [.repoGetRefs refsFilter,
        .repoPush (mkPushBody "add".data "aaa".data "/p".data "c".data "m".data)]) :=
  push_add_conflict_retry "/p".data "c".data "m".data
    ⟨.ok [⟨"aaa".data⟩], .error (.http 409 (some "The item already exists".data)),
     .ok [⟨"bbb".data⟩], .ok (jstr "pushed")⟩
    ⟨.ok [⟨"aaa".data⟩], .error (.http 500 (some "server error".data)),
     .ok [⟨"bbb".data⟩], .ok (jstr "pushed")⟩
    ⟨"aaa".data⟩ ⟨"bbb".data⟩ [] [] (.http 409 (some "The item already exists".data))
    rfl rfl (by decide) rfl
    ⟨"aaa".data⟩ [] (.http 500 (some "server error".data))
    rfl rfl (by decide)

/-- C10: the `edit` retry after an `already exists` conflict uses the
objectId of the fresh refs lookup performed inside the catch block, not
the objectId fetched before the failed `add`. -/
theorem push_retry_fresh_objectid (path content msg : Str) (env : PushEnv)
    (r r2 : RefInfo) (rs rs2 : List RefInfo) (e : AxErr)
    (h1 : env.refs1 = .ok (r :: rs)) (h2 : env.push1 = .error e)
    (h3 : isAlreadyExistsErr e = true) (h4 : env.refs2 = .ok (r2 :: rs2)) :
    (pushFileToRepo path content msg env).2 =
      [.repoGetRefs refsFilter,
       .repoPush (mkPushBody "add".data r.objectId path content msg),
       .repoGetRefs refsFilter,
       .repoPush (mkPushBody "edit".data r2.objectId path content msg)] ∧
    (mkPushBody "edit".data r2.objectId path content msg).oldObjectId = r2.objectId ∧
    (r.objectId ≠ r2.objectId →
      (mkPushBody "edit".data r2.objectId path content msg).oldObjectId ≠ r.objectId) := by
  refine ⟨?_, rfl, fun hne h => hne h.symm⟩
  rw [pushFileToRepo_conflict_eq path content msg env r r2 rs rs2 e h1 h2 h3 h4]

theorem push_retry_fresh_objectid_witness :
    (pushFileToRepo "/p".data "c".data "m".data
      ⟨.ok [⟨"aaa".data⟩], .error (.http 409 (some "already exists".data)),
       .ok [⟨"bbb".data⟩], .ok Jx.null⟩).2 =
      [.repoGetRefs refsFilter,
       .repoPush (mkPushBody "add".data "aaa".data "/p".data "c".data "m".data),
       .repoGetRefs refsFilter,
       .repoPush (mkPushBody "edit".data "bbb".data "/p".data "c".data "m".data)] ∧
    (mkPushBody "edit".data "bbb".data "/p".data "c".data "m".data).oldObjectId = "bbb".data ∧
    (("aaa".data : Str) ≠ "bbb".data →
      (mkPushBody "edit".data "bbb".data "/p".data "c".data "m".data).oldObjectId ≠ "aaa".data) :=
  push_retry_fresh_objectid "/p".data "c".data "m".data
    ⟨.ok [⟨"aaa".data⟩], .error (.http 409 (some "already exists".data)),
     .ok [⟨"bbb".data⟩], .ok Jx.null⟩
    ⟨"aaa".data⟩ ⟨"bbb".data⟩ [] [] (.http 409 (some "already exists".data))
    rfl rfl (by decide) rfl

/-! Helper lemmas about the `/generate` file loop. -/

theorem getFileContentFromRepo_error (e : AxErr) :
    getFileContentFromRepo (.error e) = if is404 e then .ok .null else .error e := rfl

theorem gatherEntry_error (e : AxErr) (f : Str) :
    gatherEntry (fun _ => .error e) f = (sanitizeName f, .str []) := by
  unfold gatherEntry
  rw [getFileContentFromRepo_error]
  by_cases h4 : is404 e = true <;> simp [h4, truthy]

theorem gatherEntry_mask (reads : Str → Except AxErr Jx) (f : Str) :
    gatherEntry (maskReadErrors reads) f = gatherEntry reads f := by
  unfold gatherEntry maskReadErrors
  cases h : reads f with
  | ok d => simp [h]
  | error e =>
    simp only [h]
    rw [getFileContentFromRepo_error]
    by_cases h4 : is404 e = true <;>
      simp [h4, truthy, getFileContentFromRepo]

theorem gatherRepoFiles_mask (reads : Str → Except AxErr Jx) (fs : List Str) :
    gatherRepoFiles (maskReadErrors reads) fs = gatherRepoFiles reads fs := by
  unfold gatherRepoFiles
  exact List.map_congr_left fun f _ => gatherEntry_mask reads f

/-- C4 counterexample: with every repo read failing with HTTP 500 (not a
404), the `/generate` request still answers 200 — a non-404 read failure
neither propagates nor aborts the request with 500. -/
theorem generate_read_error_not_aborting_cx :
    (generateHandler ⟨"openrouter".data, some "k".data, none, none⟩
      ⟨fun _ => .error (.http 500 none),
       .ok (jobj [("choices", Jx.arr [Jx.obj [("message".data,
         Jx.obj [("content".data, jstr "out")])]])])⟩
      (some "/specify.plan".data) (some "p".data) none).status = 200 ∧
    is404 (AxErr.http 500 none) = false :=
  ⟨rfl, rfl⟩

/-- C4 amended: in the `/generate` handler a 404 repo read is delivered as
`null` (hence empty-string content), and every OTHER read failure is
likewise swallowed by the per-file loop and treated exactly like a
missing file — no read failure ever aborts the request; when `files` is
omitted the four fixed `.specify/*.md` paths are used. -/
theorem generate_read_failures_ignored (cfg : LLMConfig) (reads : Str → Except AxErr Jx)
    (llm : Except AxErr Jx) (command userPrompt : Option Str) (files : Option (List Str))
    (e : AxErr) (m : Option Str) (f : Str) :
    generateHandler cfg ⟨reads, llm⟩ command userPrompt files =
      generateHandler cfg ⟨maskReadErrors reads, llm⟩ command userPrompt files ∧
    getFileContentFromRepo (.error (.http 404 m)) = .ok .null ∧
    gatherEntry (fun _ => .error e) f = (sanitizeName f, .str []) ∧
    fileCandidates none = defaultFiles := by
  refine ⟨?_, rfl, gatherEntry_error e f, rfl⟩
  simp only [generateHandler, gatherRepoFiles_mask]

/-- C5 counterexample: a `/generate` request whose chat-completion call
fails with HTTP 503 answers 500 with `error` set but NO `details` field,
so the upstream body is not preserved under `details` there. -/
theorem generate_error_no_details_cx :
    (generateHandler ⟨"openrouter".data, some "k".data, none, none⟩
      ⟨fun _ => .ok Jx.null, .error (.http 503 none)⟩
      (some "c".data) (some "p".data) (some ["/x.md".data])).status = 500 ∧
    jGetOpt (generateHandler ⟨"openrouter".data, some "k".data, none, none⟩
      ⟨fun _ => .ok Jx.null, .error (.http 503 none)⟩
      (some "c".data) (some "p".data) (some ["/x.md".data])).body "error".data
      = some (jstr "Request failed with status code 503") ∧
    jGetOpt (generateHandler ⟨"openrouter".data, some "k".data, none, none⟩
      ⟨fun _ => .ok Jx.null, .error (.http 503 none)⟩
      (some "c".data) (some "p".data) (some ["/x.md".data])).body "details".data = none :=
  ⟨rfl, rfl, rfl⟩

/-- C5 amended: every upstream non-2xx answer yields HTTP 500 with `error`
set; the two `/api/ai` branches additionally carry the upstream body
under `details`, while the `/generate` handler relays only the error
message and has no `details` field. -/
theorem upstream_error_500 (body : ApiAiBody) (env : ApiAiEnv) (p : Str)
    (hp : body.prompt = some p) (hne : p ≠ [])
    (cfg : LLMConfig) (genv : GenEnv) (cmd up : Option Str) (files : Option (List Str))
    (hc : truthyOptStr cmd = true) (hu : truthyOptStr up = true)
    (hprov : cfg.provider = "openrouter".data) (hkey : truthyOptStr cfg.openrouterKey = true)
    (e : AxErr) (hllm : genv.llmResp = .error e) (bp : Str)
    (hbp : buildSpeckitPrompt ((cmd.getD []) ++ ": ".data ++ (up.getD []))
      (gatherRepoFiles genv.reads (fileCandidates files)) = .ok bp) :
    (jsStartsWith p specifyMarker = true → env.pipelineResp.ok = false →
      apiAiHandler body env =
        ⟨500, jobj [("error", jstr "Pipeline failed"), ("details", env.pipelineResp.data)],
         [.pipelineRun ((splitOnChar '.' p).getD 1 []) mainBranchRef]⟩) ∧
    (jsStartsWith p specifyMarker = false → env.openRouterResp.ok = false →
      apiAiHandler body env =
        ⟨500, jobj [("error", jstr "OpenRouter request failed"),
                    ("details", env.openRouterResp.data)],
         [.chatCompletion [⟨"user".data, p⟩]]⟩) ∧
    ((generateHandler cfg genv cmd up files).status = 500 ∧
     jGetOpt (generateHandler cfg genv cmd up files).body "error".data
       = some (.str (axErrMessage e)) ∧
     jGetOpt (generateHandler cfg genv cmd up files).body "details".data = none) := by
  have hb : p.isEmpty = false := by
    cases p with
    | nil => exact absurd rfl hne
    | cons c cs => rfl
  have hgen : generateHandler cfg genv cmd up files =
      ⟨500, jobj [("error", .str (axErrMessage e))],
       (fileCandidates files).map UpstreamCall.repoGetItem ++
         [.chatCompletion [⟨"system".data, speckitSystemMsg⟩, ⟨"user".data, bp⟩]]⟩ := by
    simp only [generateHandler, hc, hu, Bool.not_true, Bool.false_or, Bool.or_self,
      Bool.false_eq_true, if_false, hbp, callLLM, hprov, if_pos, hkey, hllm]
  have hne1 : ("error".data : Str) ≠ "details".data := by decide
  refine ⟨?_, ?_, ?_, ?_, ?_⟩
  · intro hpre hok
    simp [apiAiHandler, hp, hb, hpre, hok]
  · intro hpre hok
    simp [apiAiHandler, hp, hb, hpre, hok]
  · rw [hgen]
  · rw [hgen]; rfl
  · rw [hgen]
    simp [jGetOpt, jobj, lookupFieldOpt, hne1]

theorem upstream_error_500_witness :
    (jsStartsWith "hello".data specifyMarker = true → false = false →
      apiAiHandler ⟨some "hello".data, none⟩ ⟨⟨false, jstr "pd"⟩, ⟨false, jstr "od"⟩⟩ =
        ⟨500, jobj [("error", jstr "Pipeline failed"), ("details", jstr "pd")],
         [.pipelineRun ((splitOnChar '.' "hello".data).getD 1 []) mainBranchRef]⟩) ∧
    (jsStartsWith "hello".data specifyMarker = false → false = false →
      apiAiHandler ⟨some "hello".data, none⟩ ⟨⟨false, jstr "pd"⟩, ⟨false, jstr "od"⟩⟩ =
        ⟨500, jobj [("error", jstr "OpenRouter request failed"), ("details", jstr "od")],
         [.chatCompletion [⟨"user".data, "hello".data⟩]]⟩) ∧
    ((generateHandler ⟨"openrouter".data, some "k".data, none, none⟩
        ⟨fun _ => .ok Jx.null, .error (.http 503 none)⟩
        (some "c".data) (some "p".data) (some ["/x.md".data])).status = 500 ∧
     jGetOpt (generateHandler ⟨"openrouter".data, some "k".data, none, none⟩
        ⟨fun _ => .ok Jx.null, .error (.http 503 none)⟩
        (some "c".data) (some "p".data) (some ["/x.md".data])).body "error".data
       = some (.str (axErrMessage (.http 503 none))) ∧
     jGetOpt (generateHandler ⟨"openrouter".data, some "k".data, none, none⟩
        ⟨fun _ => .ok Jx.null, .error (.http 503 none)⟩
        (some "c".data) (some "p".data) (some ["/x.md".data])).body "details".data = none) :=
  upstream_error_500 ⟨some "hello".data, none⟩ ⟨⟨false, jstr "pd"⟩, ⟨false, jstr "od"⟩⟩
    "hello".data rfl (by decide)
    ⟨"openrouter".data, some "k".data, none, none⟩
    ⟨fun _ => .ok Jx.null, .error (.http 503 none)⟩
    (some "c".data) (some "p".data) (some ["/x.md".data])
    rfl rfl rfl rfl (.http 503 none) rfl
    ((buildSpeckitPrompt ("c".data ++ ": ".data ++ "p".data)
      (gatherRepoFiles (fun _ => .ok Jx.null) ["/x.md".data])).toOption.getD []) rfl

/-- C6 counterexample: the `part_000` variant of the `/api/ai` handler
answers 500 with an error body (and no `output` field) when the upstream
response carries an empty `choices` array, instead of returning an
empty-string output. -/
theorem part000_no_choices_error_cx :
    (part000Handler (some "hi".data) (jobj [("choices", Jx.arr [])])).status = 500 ∧
    jGetOpt (part000Handler (some "hi".data)
      (jobj [("choices", Jx.arr [])])).body "output".data = none ∧
    jGetOpt (part000Handler (some "hi".data)
      (jobj [("choices", Jx.arr [])])).body "error".data
      = some (jstr "Invalid OpenRouter response") :=
  ⟨rfl, rfl, rfl⟩

/-- C6 amended: in the `src/server.js` `/api/ai` handler, a successful
OpenRouter response answers 200 with the first choice's message content
as `output`, and a response with no choices (empty array or no `choices`
field) yields an empty-string output rather than an error; the
`part_000` variant instead answers 500 in the no-choices case. -/
theorem apiai_first_choice_output (body : ApiAiBody) (env : ApiAiEnv) (p : Str)
    (hp : body.prompt = some p) (hne : p ≠ [])
    (hpre : jsStartsWith p specifyMarker = false)
    (hok : env.openRouterResp.ok = true) (s : Str) (rest : List Jx)
    (flds : List (Str × Jx)) :
    apiAiHandler body env =
      ⟨200, jobj [("output", extractContentA env.openRouterResp.data)],
       [.chatCompletion [⟨"user".data, p⟩]]⟩ ∧
    extractContentA (Jx.obj [("choices".data,
        Jx.arr (Jx.obj [("message".data, Jx.obj (("content".data, Jx.str s) :: flds))]
          :: rest))]) = Jx.str s ∧
    extractContentA (jobj [("choices", Jx.arr [])]) = Jx.str [] ∧
    extractContentA (Jx.obj []) = Jx.str [] := by
  have hb : p.isEmpty = false := by
    cases p with
    | nil => exact absurd rfl hne
    | cons c cs => rfl
  refine ⟨?_, ?_, rfl, rfl⟩
  · simp [apiAiHandler, hp, hb, hpre, hok]
  · cases s with
    | nil => rfl
    | cons c cs => rfl

theorem apiai_first_choice_output_witness :
    apiAiHandler ⟨some "hello".data, none⟩
      ⟨⟨true, Jx.null⟩, ⟨true, jobj [("choices", Jx.arr [])]⟩⟩ =
      ⟨200, jobj [("output", extractContentA (jobj [("choices", Jx.arr [])]))],
       [.chatCompletion [⟨"user".data, "hello".data⟩]]⟩ ∧
    extractContentA (Jx.obj [("choices".data,
        Jx.arr (Jx.obj [("message".data, Jx.obj (("content".data, Jx.str "hi there".data)
          :: []))] :: []))]) = Jx.str "hi there".data ∧
    extractContentA (jobj [("choices", Jx.arr [])]) = Jx.str [] ∧
    extractContentA (Jx.obj []) = Jx.str [] :=
  apiai_first_choice_output ⟨some "hello".data, none⟩
    ⟨⟨true, Jx.null⟩, ⟨true, jobj [("choices", Jx.arr [])]⟩⟩
    "hello".data rfl (by decide) (by decide) rfl "hi there".data [] []

/-- C7: a repo file read answered 404 upstream is delivered to the caller
as `null`, rendered as empty-string content by the `/generate` loop, and
the 404 never fails the read or the request. -/
theorem repo_read_404_empty (m : Option Str) (reads : Str → Except AxErr Jx)
    (fs : List Str) (f : Str) (hf : f ∈ fs)
    (h404 : reads f = .error (.http 404 m)) :
    getFileContentFromRepo (.error (.http 404 m)) = .ok .null ∧
    gatherEntry reads f = (sanitizeName f, Jx.str []) ∧
    (sanitizeName f, Jx.str []) ∈ gatherRepoFiles reads fs := by
  have h1 : getFileContentFromRepo (.error (.http 404 m)) = .ok .null := rfl
  have h2 : gatherEntry reads f = (sanitizeName f, Jx.str []) := by
    simp [gatherEntry, h404, h1, truthy]
  refine ⟨h1, h2, ?_⟩
  unfold gatherRepoFiles
  exact List.mem_map.mpr ⟨f, hf, h2⟩

theorem repo_read_404_empty_witness :
    getFileContentFromRepo (.error (.http 404 none)) = .ok .null ∧
    gatherEntry (fun _ => .error (.http 404 none)) "/.specify/spec.md".data
      = (sanitizeName "/.specify/spec.md".data, Jx.str []) ∧
    (sanitizeName "/.specify/spec.md".data, Jx.str [])
      ∈ gatherRepoFiles (fun _ => .error (.http 404 none)) ["/.specify/spec.md".data] :=
  repo_read_404_empty none (fun _ => .error (.http 404 none))
    ["/.specify/spec.md".data] "/.specify/spec.md".data (by simp) rfl

/-- C8: requests missing a required body field are answered 400 with an
error body and an empty upstream trace: missing `prompt` on `/api/ai`,
missing `command` or `prompt` on `/generate`, missing `path` or
`content` on `/save`. -/
theorem missing_fields_400 (env : ApiAiEnv) (c : Option Str) (cfg : LLMConfig)
    (genv : GenEnv) (files : Option (List Str)) (penv : PushEnv) (j cm : Jx) :
    apiAiHandler ⟨none, c⟩ env
      = ⟨400, jobj [("error", jstr "No prompt provided")], []⟩ ∧
    (∀ up, generateHandler cfg genv none up files
      = ⟨400, jobj [("error", jstr "command and prompt are required")], []⟩) ∧
    (∀ cmd, generateHandler cfg genv cmd none files
      = ⟨400, jobj [("error", jstr "command and prompt are required")], []⟩) ∧
    saveHandler penv Jx.undefined j cm
      = ⟨400, jobj [("error", jstr "path and content required")], []⟩ ∧
    (∀ pth, saveHandler penv pth Jx.undefined cm
      = ⟨400, jobj [("error", jstr "path and content required")], []⟩) := by
  refine ⟨rfl, fun up => rfl, fun cmd => ?_, rfl, fun pth => ?_⟩
  · simp [generateHandler, truthyOptStr]
  · simp [saveHandler, isStrJx]

/-! Helper lemmas about the trace and commit message of `pushFileToRepo`. -/

theorem pushCatch_trace_head (path content msg : Str) (env : PushEnv) (e : AxErr)
    (hd : UpstreamCall) (tr : List UpstreamCall) :
    ∃ rest, (pushCatch path content msg env e (hd :: tr)).2 = hd :: rest := by
  unfold pushCatch
  by_cases hae : isAlreadyExistsErr e = true
  · simp only [hae, if_true]
    cases env.refs2 with
    | error e2 => exact ⟨_, rfl⟩
    | ok l =>
      cases l with
      | nil => exact ⟨_, rfl⟩
      | cons r rs => exact ⟨_, rfl⟩
  · exact ⟨tr, by simp [hae]⟩

theorem pushFileToRepo_trace_head (path content msg : Str) (env : PushEnv) :
    ∃ rest, (pushFileToRepo path content msg env).2 = .repoGetRefs refsFilter :: rest := by
  unfold pushFileToRepo
  cases h1 : env.refs1 with
  | error e => exact pushCatch_trace_head path content msg env e _ _
  | ok l =>
    cases l with
    | nil => exact pushCatch_trace_head path content msg env _ _ _
    | cons r rs =>
      cases h2 : env.push1 with
      | ok d => exact ⟨_, rfl⟩
      | error e => exact pushCatch_trace_head path content msg env e _ _

theorem pushCatch_comment (path content msg : Str) (env : PushEnv) (e : AxErr)
    (tr : List UpstreamCall)
    (htr : ∀ b, UpstreamCall.repoPush b ∈ tr → b.comment = msg) :
    ∀ b, UpstreamCall.repoPush b ∈ (pushCatch path content msg env e tr).2 →
      b.comment = msg := by
  unfold pushCatch
  by_cases hae : isAlreadyExistsErr e = true
  · simp only [hae, if_true]
    cases env.refs2 with
    | error e2 =>
      intro b hb
      rcases List.mem_append.mp hb with h | h
      · exact htr b h
      · simp at h
    | ok l =>
      cases l with
      | nil =>
        intro b hb
        rcases List.mem_append.mp hb with h | h
        · exact htr b h
        · simp at h
      | cons r rs =>
        intro b hb
        rcases List.mem_append.mp hb with h | h
        · exact htr b h
        · simp [mkPushBody] at h
          rw [h]
  · simp only [hae, Bool.false_eq_true, if_false]
    exact htr

theorem pushFileToRepo_comment (path content msg : Str) (env : PushEnv) :
    ∀ b, UpstreamCall.repoPush b ∈ (pushFileToRepo path content msg env).2 →
      b.comment = msg := by
  have htr1 : ∀ b, UpstreamCall.repoPush b ∈
      ([.repoGetRefs refsFilter] : List UpstreamCall) → b.comment = msg := by
    intro b hb; simp at hb
  unfold pushFileToRepo
  cases h1 : env.refs1 with
  | error e => exact pushCatch_comment path content msg env e _ htr1
  | ok l =>
    cases l with
    | nil => exact pushCatch_comment path content msg env _ _ htr1
    | cons r rs =>
      have htr2 : ∀ b, UpstreamCall.repoPush b ∈
          ([.repoGetRefs refsFilter,
            .repoPush (mkPushBody "add".data r.objectId path content msg)] :
            List UpstreamCall) → b.comment = msg := by
        intro b hb
        simp [mkPushBody] at hb
        rw [hb]
      cases h2 : env.push1 with
      | ok d => exact htr2
      | error e => exact pushCatch_comment path content msg env e _ htr2

theorem saveHandler_guard_passed (penv : PushEnv) (pth : Jx) (hp : truthy pth = true)
    (s : Str) (cm : Jx) :
    saveHandler penv pth (Jx.str s) cm =
      match pushFileToRepo (jxToStr pth) s
          (if truthy cm then jxToStr cm else "Speckit AI update".data) penv with
      | (.ok d, calls) => ⟨200, jobj [("success", .bool true), ("push", d)], calls⟩
      | (.error e, calls) => ⟨500, jobj [("error", .str (axErrMessage e))], calls⟩ := by
  unfold saveHandler
  rw [hp]
  exact rfl

/-- C9: `/save` accepts an empty-string `content` and proceeds to the push
(the refs lookup is issued), rejects any non-string `content` with 400
and no upstream call, and an absent `commitMessage` makes every push
carry the default message "Speckit AI update". -/
theorem save_empty_content_default_message (penv : PushEnv) (pth : Jx)
    (hp : truthy pth = true) (content : Jx) (hns : isStrJx content = false) (cm : Jx) :
    (saveHandler penv pth (Jx.str []) cm).status ≠ 400 ∧
    (∃ rest, (saveHandler penv pth (Jx.str []) cm).calls
      = .repoGetRefs refsFilter :: rest) ∧
    saveHandler penv pth content cm
      = ⟨400, jobj [("error", jstr "path and content required")], []⟩ ∧
    (∀ b, UpstreamCall.repoPush b ∈ (saveHandler penv pth (Jx.str []) Jx.undefined).calls →
      b.comment = "Speckit AI update".data) := by
  refine ⟨?_, ?_, ?_, ?_⟩
  · rw [saveHandler_guard_passed penv pth hp [] cm]
    rcases pushFileToRepo (jxToStr pth) []
        (if truthy cm then jxToStr cm else "Speckit AI update".data) penv with ⟨res, calls⟩
    cases res <;> simp
  · rw [saveHandler_guard_passed penv pth hp [] cm]
    obtain ⟨rest, hr⟩ := pushFileToRepo_trace_head (jxToStr pth) []
      (if truthy cm then jxToStr cm else "Speckit AI update".data) penv
    rcases hpr : pushFileToRepo (jxToStr pth) []
        (if truthy cm then jxToStr cm else "Speckit AI update".data) penv with ⟨res, calls⟩
    rw [hpr] at hr
    cases res <;> exact ⟨rest, hr⟩
  · unfold saveHandler
    simp [hp, hns]
  · rw [saveHandler_guard_passed penv pth hp [] Jx.undefined]
    have hdef : (if truthy Jx.undefined then jxToStr Jx.undefined else "Speckit AI update".data)
        = "Speckit AI update".data := rfl
    rw [hdef]
    have hc := pushFileToRepo_comment (jxToStr pth) [] "Speckit AI update".data penv
    rcases hpr : pushFileToRepo (jxToStr pth) [] "Speckit AI update".data penv with ⟨res, calls⟩
    rw [hpr] at hc
    cases res <;> exact hc

theorem save_empty_content_default_message_witness :
    ((saveHandler ⟨.ok [⟨"aaa".data⟩], .ok (jstr "ok"), .ok [], .ok Jx.null⟩
        (jstr "/p") (Jx.str []) Jx.undefined).status ≠ 400) ∧
    (∃ rest, (saveHandler ⟨.ok [⟨"aaa".data⟩], .ok (jstr "ok"), .ok [], .ok Jx.null⟩
        (jstr "/p") (Jx.str []) Jx.undefined).calls = .repoGetRefs refsFilter :: rest) ∧
    saveHandler ⟨.ok [⟨"aaa".data⟩], .ok (jstr "ok"), .ok [], .ok Jx.null⟩
        (jstr "/p") (Jx.num 7) Jx.undefined
      = ⟨400, jobj [("error", jstr "path and content required")], []⟩ ∧
    (∀ b, UpstreamCall.repoPush b ∈
        (saveHandler ⟨.ok [⟨"aaa".data⟩], .ok (jstr "ok"), .ok [], .ok Jx.null⟩
          (jstr "/p") (Jx.str []) Jx.undefined).calls →
      b.comment = "Speckit AI update".data) :=
  save_empty_content_default_message
    ⟨.ok [⟨"aaa".data⟩], .ok (jstr "ok"), .ok [], .ok Jx.null⟩
    (jstr "/p") rfl (Jx.num 7) rfl Jx.undefined

end Proxy
